import Mathlib

/-!
Shallow embedding of the sensors-proxy server (`src/sensors-server.cpp`) and
proofs about its session / activation-aggregation / dispatch logic.

Modelling conventions:
* C `int` / `int64_t` values are embedded as `Int` (no overflow is relevant at
  the magnitudes the server manipulates: counters bounded by the client limit,
  delays received as `int64_t`).
* The per-handle arrays (`sensor_enabled`, `sensor_delay_ns`,
  `sensors_enabled`) are `List`s of length `handle_last + 1`; in-bounds
  indexing uses `List.getD` / `List.set`.  A separate "checked" embedding with
  `Option`-valued indexing is used for the bounds-safety claim.
* Calls into the hardware device (`device->activate`, `device->setDelay`) are
  reified as a trace of `DevCall` values returned alongside the new state.
* The client registry (`smod->clients` plus `client_count`) is modelled as a
  `List SClient` for the command/dispatch paths (the C code keeps the array
  compacted, so the prefix of the slot array is exactly such a list); the
  slot-array representation itself is embedded separately for
  `smodule_add_client`.
-/

namespace SensorsProxy

/-- Calls made into the hardware sensors device (the Device Adapter). -/
inductive DevCall where
  | activate (handle : Nat) (enabled : Bool)
  | setDelay (handle : Nat) (delay_ns : Int)
deriving DecidableEq

/-- C `LLONG_MAX`, the sentinel used by the delay scan in
`smodule_client_update_delay`. -/
def LLONG_MAX : Int := 9223372036854775807

/-- One connected client (`struct smodule_client`): its count of enabled
sensors, its per-handle enabled flags and its per-handle requested delays. -/
structure SClient where
  sensors_enabled : Int
  sensor_enabled : List Bool
  sensor_delay_ns : List Int
deriving DecidableEq

instance : Inhabited SClient := ⟨⟨0, [], []⟩⟩

/-- The server state (`struct smodule`): highest handle, per-handle enable
counts, per-handle effective delays, and the registry of connected clients
(identified below by their index in this list). -/
structure Smod where
  handle_last : Nat
  sensors_enabled : List Int
  sensor_delay_ns : List Int
  clients : List SClient
deriving DecidableEq

/-- Enabled flag of client `ci` for `handle` (`client->sensor_enabled[handle]`). -/
def client_flag (smod : Smod) (ci : Nat) (handle : Nat) : Bool :=
  (smod.clients.getD ci default).sensor_enabled.getD handle false

/-- Number of clients having `handle` enabled (`smod->sensors_enabled[handle]`). -/
def enabled_count (smod : Smod) (handle : Nat) : Int :=
  smod.sensors_enabled.getD handle 0

/-- Stored effective delay for `handle` (`smod->sensor_delay_ns[handle]`). -/
def effective_delay (smod : Smod) (handle : Nat) : Int :=
  smod.sensor_delay_ns.getD handle 0

/-- Embedding of `smodule_client_update_activate` (sensors-server.cpp:206).
Client `ci` asks to enable (`activate_enabled = true`) or disable `handle`.
Returns the new state and the device calls made, in order.  Redundant
requests are nops; on the 0→1 edge the device is activated and, when a
non-zero effective delay is stored, the delay is re-issued right after; on
the 1→0 edge the device is deactivated. -/
def smodule_client_update_activate (smod : Smod) (ci : Nat) (handle : Nat)
    (activate_enabled : Bool) : Smod × List DevCall :=
  let client := smod.clients.getD ci default
  let enabled := client.sensor_enabled.getD handle false
  let count := smod.sensors_enabled.getD handle 0
  if activate_enabled then
    if enabled then (smod, [])
    else
      let client' : SClient :=
        { client with
            sensors_enabled := client.sensors_enabled + 1
            sensor_enabled := client.sensor_enabled.set handle true }
      let smod' : Smod :=
        { smod with
            clients := smod.clients.set ci client'
            sensors_enabled := smod.sensors_enabled.set handle (count + 1) }
      if count = 0 then
        if smod.sensor_delay_ns.getD handle 0 ≠ 0 then
          (smod', [DevCall.activate handle true,
                   DevCall.setDelay handle (smod.sensor_delay_ns.getD handle 0)])
        else (smod', [DevCall.activate handle true])
      else (smod', [])
  else
    if enabled then
      let client' : SClient :=
        { client with
            sensors_enabled := client.sensors_enabled - 1
            sensor_enabled := client.sensor_enabled.set handle false }
      let smod' : Smod :=
        { smod with
            clients := smod.clients.set ci client'
            sensors_enabled := smod.sensors_enabled.set handle (count - 1) }
      if count - 1 = 0 then (smod', [DevCall.activate handle false])
      else (smod', [])
    else (smod, [])

/-- The running-minimum scan of `smodule_client_update_delay`
(sensors-server.cpp:183-188): fold over the registered clients, picking
`c->sensor_delay_ns[handle]` whenever the client has the handle enabled and
the delay is positive and strictly below the running minimum. -/
def delay_scan (handle : Nat) (clients : List SClient) (init : Int) : Int :=
  clients.foldl
    (fun m c =>
      let delay := c.sensor_delay_ns.getD handle 0
      if c.sensor_enabled.getD handle false ∧ 0 < delay ∧ delay < m then delay
      else m)
    init

/-- Embedding of `smodule_client_update_delay` (sensors-server.cpp:166).
Recomputes the minimum requested delay over enabled clients; if some client
participates and the minimum differs from the stored effective delay (or the
stored value is 0), stores it and calls `setDelay`. -/
def smodule_client_update_delay (smod : Smod) (handle : Nat) :
    Smod × List DevCall :=
  let delay_min := delay_scan handle smod.clients LLONG_MAX
  if delay_min = LLONG_MAX then (smod, [])
  else
    if smod.sensor_delay_ns.getD handle 0 = 0 ∨
        delay_min ≠ smod.sensor_delay_ns.getD handle 0 then
      ({ smod with sensor_delay_ns := smod.sensor_delay_ns.set handle delay_min },
       [DevCall.setDelay handle delay_min])
    else (smod, [])

/-- A decoded protocol command (`struct sensors_proxy_cmd`), after the
server has taken the handle as an in-range array index.  `other` stands for
the command ids the switch ignores (`default: break`). -/
inductive Cmd where
  | activate (handle : Nat) (activate_enabled : Bool)
  | set_delay (handle : Nat) (set_delay_ns : Int)
  | other
deriving DecidableEq

/-- Embedding of the command dispatch in `smodule_client_handle_event`
(sensors-server.cpp:372-393), for a successfully received command from the
registered client `ci`. -/
def smodule_client_handle_cmd (smod : Smod) (ci : Nat) (cmd : Cmd) :
    Smod × List DevCall :=
  match cmd with
  | Cmd.activate handle en =>
    let r1 := smodule_client_update_activate smod ci handle en
    let r2 := smodule_client_update_delay r1.1 handle
    (r2.1, r1.2 ++ r2.2)
  | Cmd.set_delay handle ns =>
    let client := smod.clients.getD ci default
    let client' : SClient :=
      { client with sensor_delay_ns := client.sensor_delay_ns.set handle ns }
    let smod' : Smod := { smod with clients := smod.clients.set ci client' }
    smodule_client_update_delay smod' handle
  | Cmd.other => (smod, [])

/-- The per-handle disable loop of `smodule_client_free`
(sensors-server.cpp:340-343), over the given list of handles. -/
def smodule_client_free_loop (ci : Nat) :
    Smod × List DevCall → List Nat → Smod × List DevCall
  | acc, [] => acc
  | acc, h :: hs =>
    if (acc.1.clients.getD ci default).sensor_enabled.getD h false then
      let r := smodule_client_update_activate acc.1 ci h false
      smodule_client_free_loop ci (r.1, acc.2 ++ r.2) hs
    else smodule_client_free_loop ci acc hs

/-- Embedding of `smodule_client_free` (sensors-server.cpp:332): disable every
handle the client still has enabled (handles 0 .. handle_last in order), then
remove the client from the registry. -/
def smodule_client_free (smod : Smod) (ci : Nat) : Smod × List DevCall :=
  let r := smodule_client_free_loop ci (smod, []) (List.range (smod.handle_last + 1))
  ({ r.1 with clients := r.1.clients.eraseIdx ci }, r.2)

/-- C `ECONNRESET`. -/
def ECONNRESET : Nat := 104

/-- The errno left by `recv_all` (sensors-server.cpp:82-100) when `recv`
returned `n ≤ 0`: an orderly peer shutdown (`n = 0`) is converted to
`ECONNRESET`; otherwise the errno from `recv` stands. -/
def recv_all_errno (n : Int) (errno_in : Nat) : Nat :=
  if n = 0 then ECONNRESET else errno_in

/-- Embedding of the receive-failure branch of `smodule_client_handle_event`
(sensors-server.cpp:362-370): the client is freed only when `errno` is
`ECONNRESET`; any other receive error is merely logged and nothing changes. -/
def smodule_client_handle_event_err (smod : Smod) (ci : Nat) (errno : Nat) :
    Smod × List DevCall :=
  if errno = ECONNRESET then smodule_client_free smod ci else (smod, [])

/-- Run `smodule_client_update_activate` for a sequence of requests
`(client index, enable?)` all aimed at handle `H`, concatenating the device
call traces. -/
def run_acts (H : Nat) : Smod → List (Nat × Bool) → Smod × List DevCall
  | s, [] => (s, [])
  | s, r :: rs =>
    let step := smodule_client_update_activate s r.1 H r.2
    let rest := run_acts H step.1 rs
    (rest.1, step.2 ++ rest.2)

/-- Decidable trace shape for the reference-counting claim: after each request
the enabled count of `H` stays positive, except that it is 0 after the very
last request. -/
def mid_pos (H : Nat) : Smod → List (Nat × Bool) → Bool
  | s, [] => enabled_count s H == 0
  | s, r :: rs =>
    decide (0 < enabled_count s H) &&
      mid_pos H (smodule_client_update_activate s r.1 H r.2).1 rs

/-- Run `smodule_client_update_activate` for a sequence of requests
`(client index, handle, enable?)` with arbitrary handles, keeping only the
final state. -/
def run_reqs : Smod → List (Nat × Nat × Bool) → Smod
  | s, [] => s
  | s, r :: rs => run_reqs (smodule_client_update_activate s r.1 r.2.1 r.2.2).1 rs

/-- Run `smodule_client_handle_cmd` for a sequence of `(client index, command)`
pairs, concatenating the device call traces. -/
def run_cmds : Smod → List (Nat × Cmd) → Smod × List DevCall
  | s, [] => (s, [])
  | s, c :: cs =>
    let step := smodule_client_handle_cmd s c.1 c.2
    let rest := run_cmds step.1 cs
    (rest.1, step.2 ++ rest.2)

/-- One hardware event (`sensors_event_t`): the sensor handle plus an opaque
payload the server never interprets. -/
structure SEvent where
  sensor : Nat
  payload : Int
deriving DecidableEq

/-- Inner loop of the poll-thread fan-out (sensors-server.cpp:433-443) for one
client: walk the event batch in order, attempting a send exactly for the
events whose sensor the client has enabled; a failed send (`send_ok e =
false`) still counts as an attempted forward but breaks out of the batch. -/
def client_dispatch_events (c : SClient) (send_ok : SEvent → Bool) :
    List SEvent → List SEvent
  | [] => []
  | e :: es =>
    if c.sensor_enabled.getD e.sensor false then
      if send_ok e then e :: client_dispatch_events c send_ok es
      else [e]
    else client_dispatch_events c send_ok es

/-- Events forwarded to client `ci` during one poll-thread pass
(sensors-server.cpp:429-444): a client with no enabled sensors is skipped
outright; otherwise the batch is filtered by its enabled flags. -/
def smodule_dispatch_to (smod : Smod) (ci : Nat) (events : List SEvent)
    (send_ok : SEvent → Bool) : List SEvent :=
  let c := smod.clients.getD ci default
  if c.sensors_enabled ≤ 0 then [] else client_dispatch_events c send_ok events

/-- One full fan-out pass of `smodule_poll_thread` over all registered
clients: the list of `(client index, event)` sends attempted, in order. -/
def smodule_dispatch_batch (smod : Smod) (events : List SEvent)
    (send_ok : Nat → SEvent → Bool) : List (Nat × SEvent) :=
  (List.range smod.clients.length).flatMap
    (fun i => (smodule_dispatch_to smod i events (send_ok i)).map (fun e => (i, e)))

/-- C `SMODULE_CLIENT_MAX`. -/
def SMODULE_CLIENT_MAX : Nat := 8

/-- The slot scan of `smodule_add_client` (sensors-server.cpp:455-464):
find the first free slot; on success return the updated slot array and the
new `client_count` (`i + 1` for the slot index `i` used).  `none` means every
slot was occupied. -/
def add_client_scan (c : SClient) :
    List (Option SClient) → Nat → Option (List (Option SClient) × Nat)
  | [], _ => none
  | none :: rest, i => some (Option.some c :: rest, i + 1)
  | some x :: rest, i =>
    (add_client_scan c rest (i + 1)).map (fun r => (Option.some x :: r.1, r.2))

/-- Embedding of `smodule_add_client` (sensors-server.cpp:450-469) over the
slot array and `client_count`.  The local `err` is 0 exactly when a free slot
was bound, but the function returns `-1` on every path (the C code ends with
`return -1;` instead of `return err;`).  Result: new slots, new count, and
the value returned to the caller. -/
def smodule_add_client (slots : List (Option SClient)) (client_count : Nat)
    (c : SClient) : List (Option SClient) × Nat × Int :=
  match add_client_scan c slots 0 with
  | some r => (r.1, r.2, -1)
  | none => (slots, client_count, -1)

/-- A freshly calloc-ed client for a server with highest handle
`handle_last` (sensors-server.cpp:294-313): zero enabled sensors, all flags
clear, all requested delays 0. -/
def fresh_client (handle_last : Nat) : SClient :=
  ⟨0, List.replicate (handle_last + 1) false, List.replicate (handle_last + 1) 0⟩

/-- Outcome of `smodule_client_new` (sensors-server.cpp:280-330): the client
pointer returned to the caller, whether the accepted socket was closed on the
way out, and the (dead) local `err` holding the handshake send result. -/
structure NewClientResult where
  client : Option SClient
  fd_closed : Bool
  send_list_err : Int
deriving DecidableEq

/-- Embedding of `smodule_client_new`: on accept failure nothing is returned;
otherwise the allocations succeed, the socket joins epoll, the sensor-list
handshake is sent and its result stored in `err` — which is never tested, so
the client is returned (and the socket kept open) whether or not the
handshake send succeeded. -/
def smodule_client_new (handle_last : Nat) (accept_ok : Bool)
    (send_list_ok : Bool) : NewClientResult :=
  if accept_ok then
    ⟨some (fresh_client handle_last), false, if send_list_ok then 0 else -1⟩
  else ⟨none, false, 0⟩

/-- Embedding of `smodule_handle_event` (sensors-server.cpp:649-660) for a
readable listening socket: accept a new client and, if `smodule_client_new`
returned one, pass it to `smodule_add_client` — whose result is discarded.
Returns the new slot array, the new client count, and whether the freshly
accepted connection was closed by this path. -/
def smodule_handle_event (slots : List (Option SClient)) (client_count : Nat)
    (handle_last : Nat) (accept_ok : Bool) (send_list_ok : Bool) :
    List (Option SClient) × Nat × Bool :=
  match (smodule_client_new handle_last accept_ok send_list_ok).client with
  | some c =>
    let r := smodule_add_client slots client_count c
    (r.1, r.2.1, false)
  | none => (slots, client_count, false)

/-!  Checked embedding of the command boundary, for the bounds-safety claim:
every per-handle array access performed by the command handlers is replaced
by an `Option`-valued access that fails out of bounds, mirroring the fact
that the C code derives the index straight from `cmd.handle` (an `int32_t`
under client control) with no range check before the access. -/

/-- Checked array read at a C `int` index. -/
def getI {α : Type} (l : List α) (i : Int) (d : α) : Option α :=
  if 0 ≤ i ∧ i < (l.length : Int) then some (l.getD i.toNat d) else none

/-- Checked array write at a C `int` index. -/
def setI {α : Type} (l : List α) (i : Int) (v : α) : Option (List α) :=
  if 0 ≤ i ∧ i < (l.length : Int) then some (l.set i.toNat v) else none

/-- Checked version of the delay scan: reads each registered client, its
`sensor_delay_ns[handle]` and `sensor_enabled[handle]`, failing if any such
access is out of bounds. -/
def delay_scan_checked (handle : Int) :
    List SClient → Int → Option Int
  | [], m => some m
  | c :: cs, m => do
    let delay ← getI c.sensor_delay_ns handle 0
    let en ← getI c.sensor_enabled handle false
    delay_scan_checked handle cs (if en ∧ 0 < delay ∧ delay < m then delay else m)

/-- Checked version of `smodule_client_update_delay`. -/
def smodule_client_update_delay_checked (smod : Smod) (handle : Int) :
    Option (Smod × List DevCall) := do
  let delay_min ← delay_scan_checked handle smod.clients LLONG_MAX
  if delay_min = LLONG_MAX then some (smod, [])
  else do
    let stored ← getI smod.sensor_delay_ns handle 0
    if stored = 0 ∨ delay_min ≠ stored then do
      let arr ← setI smod.sensor_delay_ns handle delay_min
      some ({ smod with sensor_delay_ns := arr }, [DevCall.setDelay handle.toNat delay_min])
    else some (smod, [])

/-- Checked version of `smodule_client_update_activate`. -/
def smodule_client_update_activate_checked (smod : Smod) (ci : Nat)
    (handle : Int) (activate_enabled : Bool) : Option (Smod × List DevCall) := do
  let client := smod.clients.getD ci default
  let enabled ← getI client.sensor_enabled handle false
  let count ← getI smod.sensors_enabled handle 0
  if activate_enabled then
    if enabled then some (smod, [])
    else do
      let flags ← setI client.sensor_enabled handle true
      let client' : SClient :=
        { client with sensors_enabled := client.sensors_enabled + 1
                      sensor_enabled := flags }
      let counts ← setI smod.sensors_enabled handle (count + 1)
      let smod' : Smod :=
        { smod with clients := smod.clients.set ci client'
                    sensors_enabled := counts }
      if count = 0 then do
        let stored ← getI smod.sensor_delay_ns handle 0
        if stored ≠ 0 then
          some (smod', [DevCall.activate handle.toNat true,
                        DevCall.setDelay handle.toNat stored])
        else some (smod', [DevCall.activate handle.toNat true])
      else some (smod', [])
  else
    if enabled then do
      let flags ← setI client.sensor_enabled handle false
      let client' : SClient :=
        { client with sensors_enabled := client.sensors_enabled - 1
                      sensor_enabled := flags }
      let counts ← setI smod.sensors_enabled handle (count - 1)
      let smod' : Smod :=
        { smod with clients := smod.clients.set ci client'
                    sensors_enabled := counts }
      if count - 1 = 0 then some (smod', [DevCall.activate handle.toNat false])
      else some (smod', [])
    else some (smod, [])

/-- A wire command as received (`struct sensors_proxy_cmd`): `cmd` id, raw
`handle`, and the union field (`activate_enabled` / `set_delay_ns`). -/
structure ProxyCmd where
  cmd : Int
  handle : Int
  value : Int
deriving DecidableEq

/-- C `SENSORS_PROXY_CMD_ACTIVATE`. -/
def SENSORS_PROXY_CMD_ACTIVATE : Int := 0

/-- C `SENSORS_PROXY_CMD_SET_DELAY`. -/
def SENSORS_PROXY_CMD_SET_DELAY : Int := 1

/-- Checked embedding of the command switch in `smodule_client_handle_event`:
for `ACTIVATE`, run the checked activate update then the checked delay
update; for `SET_DELAY`, first store the raw delay into the client delay array at
`cmd.handle` (sensors-server.cpp:387 — this write happens before any
validity assertion runs), then run the checked delay update.  Unknown
command ids are ignored without touching any array. -/
def smodule_client_handle_cmd_checked (smod : Smod) (ci : Nat)
    (cmd : ProxyCmd) : Option (Smod × List DevCall) :=
  if cmd.cmd = SENSORS_PROXY_CMD_ACTIVATE then do
    let r1 ← smodule_client_update_activate_checked smod ci cmd.handle (cmd.value ≠ 0)
    let r2 ← smodule_client_update_delay_checked r1.1 cmd.handle
    some (r2.1, r1.2 ++ r2.2)
  else if cmd.cmd = SENSORS_PROXY_CMD_SET_DELAY then do
    let client := smod.clients.getD ci default
    let arr ← setI client.sensor_delay_ns cmd.handle cmd.value
    let client' : SClient := { client with sensor_delay_ns := arr }
    let smod' : Smod := { smod with clients := smod.clients.set ci client' }
    smodule_client_update_delay_checked smod' cmd.handle
  else some (smod, [])

/-- Per-handle array touches performed while handling one command, in program
order: a raw store into the session delay array, or an `ALOG_ASSERT` range
check on the handle. -/
inductive BoundaryAction where
  | store_client_delay (handle : Int)
  | assert_handle_range (handle : Int)
deriving DecidableEq

/-- Program-order trace of handle-indexed stores and range assertions while
handling one command: `ACTIVATE` first reaches the assertion at the top of
`smodule_client_update_activate` (line 221), then the one in
`smodule_client_update_delay` (line 177); `SET_DELAY` performs the raw store
`client->sensor_delay_ns[cmd.handle] = cmd.set_delay_ns` (line 387) and only
then reaches the assertion inside `smodule_client_update_delay`. -/
def smodule_cmd_boundary_trace (cmd : ProxyCmd) : List BoundaryAction :=
  if cmd.cmd = SENSORS_PROXY_CMD_ACTIVATE then
    [BoundaryAction.assert_handle_range cmd.handle,
     BoundaryAction.assert_handle_range cmd.handle]
  else if cmd.cmd = SENSORS_PROXY_CMD_SET_DELAY then
    [BoundaryAction.store_client_delay cmd.handle,
     BoundaryAction.assert_handle_range cmd.handle]
  else []

/-- Well-formedness of the embedded server state: every per-handle array has
exactly `handle_last + 1` entries. -/
def Smod.wf (smod : Smod) : Prop :=
  smod.sensors_enabled.length = smod.handle_last + 1 ∧
  smod.sensor_delay_ns.length = smod.handle_last + 1 ∧
  ∀ c ∈ smod.clients,
    c.sensor_enabled.length = smod.handle_last + 1 ∧
    c.sensor_delay_ns.length = smod.handle_last + 1

/-- The delays that the specification words make eligible for aggregation at
`handle`: the positive requested delays of the sessions currently enabled for
`handle`.  Modelled from the spec sentence "Recompute `min_delay` = min over
all sessions currently enabled for handle of (`requested_ns` > 0)"; used to
compare the specified aggregation with the implemented scan. -/
def enabled_positive_delays (smod : Smod) (handle : Nat) : List Int :=
  smod.clients.filterMap
    (fun c =>
      if c.sensor_enabled.getD handle false ∧ 0 < c.sensor_delay_ns.getD handle 0
      then some (c.sensor_delay_ns.getD handle 0) else none)

/-- A client delay request at `handle` when the implemented scan can pick
it: the client has the handle enabled and the request is positive and
strictly below `LLONG_MAX`, the sentinel of the scan. -/
def client_agg_delay (handle : Nat) (c : SClient) : Option Int :=
  if c.sensor_enabled.getD handle false ∧ 0 < c.sensor_delay_ns.getD handle 0 ∧
      c.sensor_delay_ns.getD handle 0 < LLONG_MAX
  then some (c.sensor_delay_ns.getD handle 0) else none

/-- The delays the implemented scan can actually pick at `handle`: as above
but additionally strictly below `LLONG_MAX`, the sentinel of the scan. -/
def aggregable_delays (smod : Smod) (handle : Nat) : List Int :=
  smod.clients.filterMap (client_agg_delay handle)

/-!  Concrete states used by witnesses and counterexamples. -/

/-- A server with a single sensor (handle 0) and two fresh clients. -/
def ex_smod2 : Smod := ⟨0, [0], [0], [fresh_client 0, fresh_client 0]⟩

/-- A server with a single sensor and three fresh clients. -/
def ex_smod3 : Smod := ⟨0, [0], [0], [fresh_client 0, fresh_client 0, fresh_client 0]⟩

/-- The min-delay scenario of the specification: three clients request delays
of 50 ms, 20 ms and 100 ms for handle 0 and enable it, each via a `SET_DELAY`
followed by an `ACTIVATE` command. -/
def ex_delay_cmds : List (Nat × Cmd) :=
  [(0, Cmd.set_delay 0 50000000), (0, Cmd.activate 0 true),
   (1, Cmd.set_delay 0 20000000), (1, Cmd.activate 0 true),
   (2, Cmd.set_delay 0 100000000), (2, Cmd.activate 0 true)]

/-- The state after the three clients of the min-delay scenario have set
their delays and enabled handle 0. -/
def ex_delay_smod : Smod := (run_cmds ex_smod3 ex_delay_cmds).1

/-- A server with one sensor and one client that has handle 0 enabled
(enabled count 1), with no effective delay stored. -/
def ex_smod_enabled1 : Smod := ⟨0, [1], [0], [⟨1, [true], [0]⟩]⟩

/-- A server with one sensor and one enabled client whose requested delay is
exactly `LLONG_MAX`. -/
def ex_smod_llmax : Smod := ⟨0, [1], [0], [⟨1, [true], [9223372036854775807]⟩]⟩

/-- An empty registry slot array. -/
def ex_slots_empty : List (Option SClient) := List.replicate SMODULE_CLIENT_MAX none

/-- A completely full registry slot array. -/
def ex_slots_full : List (Option SClient) :=
  List.replicate SMODULE_CLIENT_MAX (some (fresh_client 0))

/-- A server with two sensors (handles 0 and 1) and two clients: client 0 has
both handles enabled with a positive delay request, client 1 has nothing
enabled. -/
def ex_smod_iso : Smod :=
  ⟨1, [1, 1], [5000000, 0], [⟨2, [true, true], [5000000, 0]⟩, fresh_client 1]⟩

/-- A server with two sensors and two fresh clients, before any request. -/
def ex_smod_two_sensors : Smod := ⟨1, [0, 0], [0, 0], [fresh_client 1, fresh_client 1]⟩

/-- A send function that always succeeds. -/
def ex_send_ok : Nat → SEvent → Bool := fun _ _ => true

/-- A two-event batch for handle 0 and handle 1. -/
def ex_events : List SEvent := [⟨0, 11⟩, ⟨1, 22⟩]

/-!  List helper lemmas. -/

theorem getD_set_self {α : Type} (l : List α) (i : Nat) (v d : α)
    (h : i < l.length) : (l.set i v).getD i d = v := by
  simp [List.getD, List.get?_eq_getElem?, List.getElem?_set_self', h]

theorem getD_set_ne {α : Type} (l : List α) (i j : Nat) (v d : α) (h : i ≠ j) :
    (l.set i v).getD j d = l.getD j d := by
  simp [List.getD, List.get?_eq_getElem?, List.getElem?_set_ne h]

theorem getD_mem_of_lt {α : Type} (l : List α) (i : Nat) (d : α)
    (h : i < l.length) : l.getD i d ∈ l := by
  rw [List.getD, List.get?_eq_getElem?, List.getElem?_eq_getElem h]
  exact List.getElem_mem h

theorem getD_of_length_le {α : Type} (l : List α) (i : Nat) (d : α)
    (h : l.length ≤ i) : l.getD i d = d := by
  rw [List.getD, List.get?_eq_getElem?, List.getElem?_eq_none h]
  rfl

theorem getD_true_lt (l : List Bool) (i : Nat) (h : l.getD i false = true) :
    i < l.length := by
  by_contra hlt
  rw [getD_of_length_le l i false (by omega)] at h
  exact Bool.false_ne_true h

theorem getE_set_self {α : Type} (l : List α) (i : Nat) (v d : α)
    (h : i < l.length) : (l.set i v)[i]?.getD d = v := by
  rw [List.getElem?_set_eq_of_lt v h]
  rfl

theorem getE_set_ne {α : Type} (l : List α) (i j : Nat) (v d : α)
    (h : i ≠ j) : (l.set i v)[j]?.getD d = l[j]?.getD d := by
  rw [List.getElem?_set_ne h]

/-!  Case lemmas for `smodule_client_update_activate`. -/

theorem ua_nop_enable (smod : Smod) (ci handle : Nat)
    (hf : client_flag smod ci handle = true) :
    smodule_client_update_activate smod ci handle true = (smod, []) := by
  rw [client_flag] at hf
  rw [smodule_client_update_activate]
  simp only [if_true, hf, if_pos]

theorem ua_nop_disable (smod : Smod) (ci handle : Nat)
    (hf : client_flag smod ci handle = false) :
    smodule_client_update_activate smod ci handle false = (smod, []) := by
  rw [client_flag] at hf
  rw [smodule_client_update_activate]
  simp only [Bool.false_eq_true, if_false, hf]

theorem ua_handle_last (smod : Smod) (ci handle : Nat) (b : Bool) :
    (smodule_client_update_activate smod ci handle b).1.handle_last =
      smod.handle_last := by
  rw [smodule_client_update_activate]
  cases b <;> split_ifs <;> rfl

theorem ua_delay_ns (smod : Smod) (ci handle : Nat) (b : Bool) :
    (smodule_client_update_activate smod ci handle b).1.sensor_delay_ns =
      smod.sensor_delay_ns := by
  rw [smodule_client_update_activate]
  cases b <;> split_ifs <;> rfl

theorem ua_counts_length (smod : Smod) (ci handle : Nat) (b : Bool) :
    (smodule_client_update_activate smod ci handle b).1.sensors_enabled.length =
      smod.sensors_enabled.length := by
  rw [smodule_client_update_activate]
  cases b <;> split_ifs <;> simp [List.length_set]

theorem ua_clients_length (smod : Smod) (ci handle : Nat) (b : Bool) :
    (smodule_client_update_activate smod ci handle b).1.clients.length =
      smod.clients.length := by
  rw [smodule_client_update_activate]
  cases b <;> split_ifs <;> simp [List.length_set]

theorem ua_count_after (smod : Smod) (ci handle : Nat) (b : Bool)
    (hH : handle < smod.sensors_enabled.length) :
    enabled_count (smodule_client_update_activate smod ci handle b).1 handle =
      if b then
        (if client_flag smod ci handle then enabled_count smod handle
         else enabled_count smod handle + 1)
      else
        (if client_flag smod ci handle then enabled_count smod handle - 1
         else enabled_count smod handle) := by
  simp only [smodule_client_update_activate, client_flag, enabled_count]
  cases b <;> split_ifs <;> simp_all [getE_set_self, getE_set_ne]

theorem ua_count_other (smod : Smod) (ci handle : Nat) (b : Bool) (H : Nat)
    (hne : handle ≠ H) :
    enabled_count (smodule_client_update_activate smod ci handle b).1 H =
      enabled_count smod H := by
  simp only [smodule_client_update_activate, enabled_count]
  cases b <;> split_ifs <;> simp_all [getE_set_self, getE_set_ne]

theorem ua_calls_true_prim (smod : Smod) (ci handle : Nat) (b : Bool) :
    (smodule_client_update_activate smod ci handle b).2.count
        (DevCall.activate handle true) =
      if b = true ∧ client_flag smod ci handle = false ∧
          enabled_count smod handle = 0 then 1 else 0 := by
  simp only [smodule_client_update_activate, client_flag, enabled_count]
  cases b <;> split_ifs <;> simp_all [List.count_cons, List.count_nil]

theorem ua_calls_false_prim (smod : Smod) (ci handle : Nat) (b : Bool) :
    (smodule_client_update_activate smod ci handle b).2.count
        (DevCall.activate handle false) =
      if b = false ∧ client_flag smod ci handle = true ∧
          enabled_count smod handle = 1 then 1 else 0 := by
  simp only [smodule_client_update_activate, client_flag, enabled_count]
  cases b <;> split_ifs <;> (simp_all [List.count_cons, List.count_nil]; try omega)

theorem ua_calls_activate_true (smod : Smod) (ci handle : Nat) (b : Bool)
    (hH : handle < smod.sensors_enabled.length) :
    (smodule_client_update_activate smod ci handle b).2.count
        (DevCall.activate handle true) =
      if enabled_count smod handle = 0 ∧
          enabled_count (smodule_client_update_activate smod ci handle b).1 handle = 1
      then 1 else 0 := by
  rw [ua_calls_true_prim, ua_count_after smod ci handle b hH]
  rcases b <;> rcases hfl : client_flag smod ci handle <;>
    simp [hfl] <;> split_ifs <;> omega

theorem ua_calls_activate_false (smod : Smod) (ci handle : Nat) (b : Bool)
    (hH : handle < smod.sensors_enabled.length) :
    (smodule_client_update_activate smod ci handle b).2.count
        (DevCall.activate handle false) =
      if enabled_count smod handle = 1 ∧
          enabled_count (smodule_client_update_activate smod ci handle b).1 handle = 0
      then 1 else 0 := by
  rw [ua_calls_false_prim, ua_count_after smod ci handle b hH]
  rcases b <;> rcases hfl : client_flag smod ci handle <;>
    simp [hfl] <;> split_ifs <;> omega

theorem ua_flag_other_client (smod : Smod) (ci handle : Nat) (b : Bool)
    (ci' H : Nat) (hne : ci' ≠ ci) :
    client_flag (smodule_client_update_activate smod ci handle b).1 ci' H =
      client_flag smod ci' H := by
  have hne' : ci ≠ ci' := Ne.symm hne
  simp only [smodule_client_update_activate, client_flag]
  cases b <;> split_ifs <;> simp_all [getE_set_self, getE_set_ne]

theorem ua_flag_other_handle (smod : Smod) (ci handle : Nat) (b : Bool)
    (H : Nat) (hne : handle ≠ H) :
    client_flag (smodule_client_update_activate smod ci handle b).1 ci H =
      client_flag smod ci H := by
  by_cases hci : ci < smod.clients.length
  · simp only [smodule_client_update_activate, client_flag]
    cases b <;> split_ifs <;> simp_all [getE_set_self, getE_set_ne]
  · have hle : smod.clients.length ≤ ci := by omega
    simp only [smodule_client_update_activate, client_flag]
    cases b <;> split_ifs <;> simp_all [List.set_eq_of_length_le hle]

theorem ua_flag_false_preserved (smod : Smod) (ci' handle : Nat) (b : Bool)
    (ci H : Nat) (hf : client_flag smod ci H = false)
    (hno : ¬(ci' = ci ∧ handle = H ∧ b = true)) :
    client_flag (smodule_client_update_activate smod ci' handle b).1 ci H = false := by
  by_cases h1 : ci' = ci
  · subst h1
    by_cases h2 : handle = H
    · subst h2
      have hb : b = false := by
        cases b
        · rfl
        · exact absurd ⟨rfl, rfl, rfl⟩ hno
      subst hb
      rw [ua_nop_disable smod ci' handle hf]
      exact hf
    · rw [ua_flag_other_handle smod ci' handle b H h2]
      exact hf
  · rw [ua_flag_other_client smod ci' handle b ci H (fun h => h1 h.symm)]
    exact hf

/-!  Reference-counting over request traces. -/

theorem run_acts_nil (H : Nat) (s : Smod) : run_acts H s [] = (s, []) := rfl

theorem run_acts_cons (H : Nat) (s : Smod) (r : Nat × Bool)
    (rs : List (Nat × Bool)) :
    run_acts H s (r :: rs) =
      ((run_acts H (smodule_client_update_activate s r.1 H r.2).1 rs).1,
       (smodule_client_update_activate s r.1 H r.2).2 ++
         (run_acts H (smodule_client_update_activate s r.1 H r.2).1 rs).2) := rfl

theorem mid_pos_nil (H : Nat) (s : Smod) :
    mid_pos H s [] = (enabled_count s H == 0) := rfl

theorem mid_pos_cons (H : Nat) (s : Smod) (r : Nat × Bool)
    (rs : List (Nat × Bool)) :
    mid_pos H s (r :: rs) =
      (decide (0 < enabled_count s H) &&
        mid_pos H (smodule_client_update_activate s r.1 H r.2).1 rs) := rfl

/-- While the enabled count of `H` stays positive until it reaches 0 at the
very end of the trace, the trace makes no `activate(H, true)` call and
exactly one `activate(H, false)` call. -/
theorem run_pos (H : Nat) : ∀ (rs : List (Nat × Bool)) (s : Smod),
    H < s.sensors_enabled.length → 0 < enabled_count s H →
    mid_pos H s rs = true →
    (run_acts H s rs).2.count (DevCall.activate H true) = 0 ∧
    (run_acts H s rs).2.count (DevCall.activate H false) = 1 := by
  intro rs
  induction rs with
  | nil =>
    intro s hH hpos hmid
    rw [mid_pos_nil] at hmid
    have h0 : enabled_count s H = 0 := by simpa using hmid
    omega
  | cons r rs ih =>
    intro s hH hpos hmid
    rw [mid_pos_cons] at hmid
    obtain ⟨hp, hmid'⟩ := Bool.and_eq_true_iff.mp hmid
    have hH' : H < (smodule_client_update_activate s r.1 H r.2).1.sensors_enabled.length := by
      rw [ua_counts_length]
      exact hH
    have ht := ua_calls_activate_true s r.1 H r.2 hH
    have hf := ua_calls_activate_false s r.1 H r.2 hH
    have hca := ua_count_after s r.1 H r.2 hH
    rw [run_acts_cons]
    cases rs with
    | nil =>
      have hzero : enabled_count (smodule_client_update_activate s r.1 H r.2).1 H = 0 := by
        rw [mid_pos_nil] at hmid'
        simpa using hmid'
      have h1 : enabled_count s H = 1 := by
        split_ifs at hca <;> omega
      have ht0 : (smodule_client_update_activate s r.1 H r.2).2.count
          (DevCall.activate H true) = 0 := by
        rw [ht, if_neg]
        omega
      have hf1 : (smodule_client_update_activate s r.1 H r.2).2.count
          (DevCall.activate H false) = 1 := by
        rw [hf, if_pos ⟨h1, hzero⟩]
      simp only [run_acts_nil, List.count_append, List.count_nil]
      omega
    | cons r' rs' =>
      have hp' : 0 < enabled_count (smodule_client_update_activate s r.1 H r.2).1 H := by
        rw [mid_pos_cons] at hmid'
        have := (Bool.and_eq_true_iff.mp hmid').1
        exact of_decide_eq_true this
      have ht0 : (smodule_client_update_activate s r.1 H r.2).2.count
          (DevCall.activate H true) = 0 := by
        rw [ht, if_neg]
        omega
      have hf0 : (smodule_client_update_activate s r.1 H r.2).2.count
          (DevCall.activate H false) = 0 := by
        rw [hf, if_neg]
        omega
      obtain ⟨iht, ihf⟩ := ih (smodule_client_update_activate s r.1 H r.2).1 hH' hp' hmid'
      simp only [List.count_append]
      omega

/-- C1: for every handle `H` and every sequence of enable/disable requests
(at least two, from arbitrary sessions) whose net demand starts at 0, stays
positive strictly in between and returns to 0 only at the end,
`activate(H, true)` is called exactly once and `activate(H, false)` exactly
once; moreover (second conjunct) any single request causes an
`activate(H, true)` call precisely when `enabled_count[H]` transitions 0→1
under it, and an `activate(H, false)` call precisely when it transitions
1→0, so no other request causes an activate call. -/
theorem C1_refcount_single_activate (smod : Smod) (H : Nat) (r0 r1 : Nat × Bool)
    (rs : List (Nat × Bool)) (hH : H < smod.sensors_enabled.length)
    (h0 : enabled_count smod H = 0)
    (hmid : mid_pos H (smodule_client_update_activate smod r0.1 H r0.2).1
      (r1 :: rs) = true) :
    ((run_acts H smod (r0 :: r1 :: rs)).2.count (DevCall.activate H true) = 1 ∧
     (run_acts H smod (r0 :: r1 :: rs)).2.count (DevCall.activate H false) = 1) ∧
    (∀ (s : Smod) (ci : Nat) (b : Bool), H < s.sensors_enabled.length →
      ((smodule_client_update_activate s ci H b).2.count
          (DevCall.activate H true) = 1 ↔
        enabled_count s H = 0 ∧
          enabled_count (smodule_client_update_activate s ci H b).1 H = 1) ∧
      ((smodule_client_update_activate s ci H b).2.count
          (DevCall.activate H false) = 1 ↔
        enabled_count s H = 1 ∧
          enabled_count (smodule_client_update_activate s ci H b).1 H = 0)) := by
  constructor
  · have hp1 : 0 < enabled_count (smodule_client_update_activate smod r0.1 H r0.2).1 H := by
      rw [mid_pos_cons] at hmid
      exact of_decide_eq_true (Bool.and_eq_true_iff.mp hmid).1
    have hH1 : H < (smodule_client_update_activate smod r0.1 H r0.2).1.sensors_enabled.length := by
      rw [ua_counts_length]
      exact hH
    have hca := ua_count_after smod r0.1 H r0.2 hH
    have hc1 : enabled_count (smodule_client_update_activate smod r0.1 H r0.2).1 H = 1 := by
      split_ifs at hca <;> omega
    have ht1 : (smodule_client_update_activate smod r0.1 H r0.2).2.count
        (DevCall.activate H true) = 1 := by
      rw [ua_calls_activate_true smod r0.1 H r0.2 hH, if_pos ⟨h0, hc1⟩]
    have hf0 : (smodule_client_update_activate smod r0.1 H r0.2).2.count
        (DevCall.activate H false) = 0 := by
      rw [ua_calls_activate_false smod r0.1 H r0.2 hH, if_neg]
      omega
    obtain ⟨rt, rf⟩ :=
      run_pos H (r1 :: rs) (smodule_client_update_activate smod r0.1 H r0.2).1 hH1 hp1 hmid
    rw [run_acts_cons]
    simp only [List.count_append]
    omega
  · intro s ci b hHs
    constructor
    · rw [ua_calls_activate_true s ci H b hHs]
      split_ifs with h <;> simp [h]
    · rw [ua_calls_activate_false s ci H b hHs]
      split_ifs with h <;> simp [h]

/-- Witness for C1: two clients enable handle 0 then both disable it; exactly
one `activate(0, true)` and one `activate(0, false)` are issued. -/
theorem C1_refcount_single_activate_witness :
    (run_acts 0 ex_smod2 [(0, true), (1, true), (0, false), (1, false)]).2.count
        (DevCall.activate 0 true) = 1 ∧
    (run_acts 0 ex_smod2 [(0, true), (1, true), (0, false), (1, false)]).2.count
        (DevCall.activate 0 false) = 1 :=
  (C1_refcount_single_activate ex_smod2 0 (0, true) (1, true)
    [(0, false), (1, false)] (by decide) (by decide) (by decide)).1

/-- C6: for every session and handle, an enable request for an
already-enabled handle and a disable request for an already-disabled handle
are nops: no device call is made and the whole server state (including
`enabled_count` and all session state) is unchanged. -/
theorem C6_redundant_requests_nop (smod : Smod) (ci handle : Nat) :
    (client_flag smod ci handle = true →
      smodule_client_update_activate smod ci handle true = (smod, [])) ∧
    (client_flag smod ci handle = false →
      smodule_client_update_activate smod ci handle false = (smod, [])) :=
  ⟨ua_nop_enable smod ci handle, ua_nop_disable smod ci handle⟩

/-- Witness for C6: a client with handle 0 enabled re-enables it, and a fresh
client disables a handle it never enabled; both leave everything unchanged. -/
theorem C6_redundant_requests_nop_witness :
    smodule_client_update_activate ex_smod_enabled1 0 0 true = (ex_smod_enabled1, []) ∧
    smodule_client_update_activate ex_smod2 1 0 false = (ex_smod2, []) :=
  ⟨(C6_redundant_requests_nop ex_smod_enabled1 0 0).1 (by decide),
   (C6_redundant_requests_nop ex_smod2 1 0).2 (by decide)⟩

/-- C9: when an enable request causes the hardware activation edge
(`enabled_count` 0→1) and the stored effective delay is non-zero,
`setDelay(handle, effective_delay)` is issued immediately after
`activate(handle, true)`; when the stored effective delay is zero, only the
`activate` call is made. -/
theorem C9_delay_reissued_on_activation (smod : Smod) (ci handle : Nat)
    (hf : client_flag smod ci handle = false)
    (hc : enabled_count smod handle = 0) :
    (effective_delay smod handle ≠ 0 →
      (smodule_client_update_activate smod ci handle true).2 =
        [DevCall.activate handle true,
         DevCall.setDelay handle (effective_delay smod handle)]) ∧
    (effective_delay smod handle = 0 →
      (smodule_client_update_activate smod ci handle true).2 =
        [DevCall.activate handle true]) := by
  rw [client_flag] at hf
  rw [enabled_count] at hc
  constructor
  · intro hd
    rw [effective_delay] at hd ⊢
    rw [smodule_client_update_activate]
    simp_all
  · intro hd
    rw [effective_delay] at hd
    rw [smodule_client_update_activate]
    simp_all

/-- Counterexample to C2 as stated: in the {50ms, 20ms, 100ms} scenario,
when the session holding the 20 ms minimum leaves by disconnecting
(`smodule_client_free`, the teardown path), no `setDelay` is issued and the
stored effective delay remains 20 ms — the new minimum of 50 ms is not
pushed to the adapter. -/
theorem C2_disconnect_no_recompute_cex :
    (smodule_client_free ex_delay_smod 1).2 = [] ∧
    effective_delay (smodule_client_free ex_delay_smod 1).1 0 = 20000000 ∧
    client_flag ex_delay_smod 1 0 = true ∧
    (ex_delay_smod.clients.getD 1 default).sensor_delay_ns.getD 0 0 = 20000000 := by
  decide

/-- C2 amended: with sessions requesting {50ms, 20ms, 100ms} for enabled
handle 0, the delay pushed to the adapter is the minimum, 20 ms.  When the
session holding the 20 ms minimum leaves by an explicit disable command, the
minimum is recomputed and 50 ms is pushed; but when it leaves by
disconnecting, the sensors are deactivated without recomputation: no
`setDelay` is issued and the stored effective delay stays 20 ms until some
later command triggers a recomputation. -/
theorem C2_min_delay_aggregation_amended :
    (effective_delay ex_delay_smod 0 = 20000000 ∧
     (run_cmds ex_smod3 ex_delay_cmds).2 =
       [DevCall.activate 0 true, DevCall.setDelay 0 50000000,
        DevCall.setDelay 0 20000000]) ∧
    ((run_cmds ex_delay_smod [(1, Cmd.activate 0 false)]).2 =
       [DevCall.setDelay 0 50000000] ∧
     effective_delay (run_cmds ex_delay_smod [(1, Cmd.activate 0 false)]).1 0 =
       50000000) ∧
    ((smodule_client_free ex_delay_smod 1).2 = [] ∧
     effective_delay (smodule_client_free ex_delay_smod 1).1 0 = 20000000) := by
  decide

/-- C3 evaluated at the failing inputs: `smodule_add_client` on a non-full
registry does bind a free slot and update the count, yet still returns `-1`
(the code ends in `return -1` instead of `return err`), so success is
indistinguishable from `Full`; and when the registry is full,
`smodule_handle_event` — which ignores the result of `smodule_add_client` —
leaves the freshly accepted client connected and unregistered instead of
refusing (closing) it. -/
theorem C3_add_client_return_bug :
    ((smodule_add_client ex_slots_empty 0 (fresh_client 0)).1 =
       some (fresh_client 0) :: List.replicate 7 none ∧
     (smodule_add_client ex_slots_empty 0 (fresh_client 0)).2.1 = 1 ∧
     (smodule_add_client ex_slots_empty 0 (fresh_client 0)).2.2 = -1) ∧
    ((smodule_add_client ex_slots_full 8 (fresh_client 0)).1 = ex_slots_full ∧
     (smodule_add_client ex_slots_full 8 (fresh_client 0)).2.1 = 8 ∧
     (smodule_add_client ex_slots_full 8 (fresh_client 0)).2.2 = -1 ∧
     smodule_handle_event ex_slots_full 8 0 true true = (ex_slots_full, 8, false)) := by
  decide

/-- C4 evaluated at the failing input: when the sensor-list handshake send
fails, `smodule_client_new` records the failure in its local `err` but never
tests it — the session is still returned with its socket open, and
`smodule_handle_event` registers it into the registry instead of discarding
it. -/
theorem C4_handshake_failure_still_registered_bug :
    ((smodule_client_new 0 true false).send_list_err = -1 ∧
     (smodule_client_new 0 true false).client = some (fresh_client 0) ∧
     (smodule_client_new 0 true false).fd_closed = false) ∧
    smodule_handle_event ex_slots_empty 0 0 true false =
      (some (fresh_client 0) :: List.replicate 7 none, 1, false) := by
  decide

/-!  Fan-out lemmas. -/

theorem mem_client_dispatch (c : SClient) (send_ok : SEvent → Bool) :
    ∀ (events : List SEvent) (e : SEvent),
      e ∈ client_dispatch_events c send_ok events →
      c.sensor_enabled.getD e.sensor false = true := by
  intro events
  induction events with
  | nil =>
    intro e he
    simp [client_dispatch_events] at he
  | cons e' es ih =>
    intro e he
    simp only [client_dispatch_events] at he
    split_ifs at he with h1 h2
    · rcases List.mem_cons.mp he with rfl | hmem
      · exact h1
      · exact ih e hmem
    · rw [List.mem_singleton.mp he]
      exact h1
    · exact ih e he

theorem mem_dispatch_to (smod : Smod) (ci : Nat) (events : List SEvent)
    (send_ok : SEvent → Bool) (e : SEvent)
    (he : e ∈ smodule_dispatch_to smod ci events send_ok) :
    (smod.clients.getD ci default).sensor_enabled.getD e.sensor false = true := by
  simp only [smodule_dispatch_to] at he
  split_ifs at he with h
  · simp at he
  · exact mem_client_dispatch _ _ _ _ he

theorem mem_dispatch_batch (smod : Smod) (events : List SEvent)
    (send_ok : Nat → SEvent → Bool) (i : Nat) (e : SEvent)
    (h : (i, e) ∈ smodule_dispatch_batch smod events send_ok) :
    (smod.clients.getD i default).sensor_enabled.getD e.sensor false = true := by
  rw [smodule_dispatch_batch] at h
  obtain ⟨j, _, hmem⟩ := List.mem_flatMap.mp h
  obtain ⟨e', he', heq⟩ := List.mem_map.mp hmem
  obtain ⟨h1, h2⟩ := Prod.mk.injEq _ _ _ _ ▸ heq
  subst h1
  subst h2
  exact mem_dispatch_to smod j events (send_ok j) e' he'

theorem run_reqs_flag_false (ci H : Nat) :
    ∀ (reqs : List (Nat × Nat × Bool)) (s : Smod),
      client_flag s ci H = false →
      (∀ r ∈ reqs, ¬(r.1 = ci ∧ r.2.1 = H ∧ r.2.2 = true)) →
      client_flag (run_reqs s reqs) ci H = false := by
  intro reqs
  induction reqs with
  | nil =>
    intro s hf _
    exact hf
  | cons r rs ih =>
    intro s hf hno
    rw [run_reqs]
    exact ih _
      (ua_flag_false_preserved s r.1 r.2.1 r.2.2 ci H hf (hno r (List.mem_cons_self r rs)))
      (fun r' hr' => hno r' (List.mem_cons_of_mem _ hr'))

/-- C8: a session `ci` that starts with handle `H` disabled and never sends
an effective enable for `H` is never forwarded any event whose sensor is
`H`, whatever the other sessions did and whatever the hardware state; and
(second conjunct) during fan-out an event is forwarded to a session only if
that session has the event sensor handle in its enabled set. -/
theorem C8_event_isolation (s0 : Smod) (reqs : List (Nat × Nat × Bool))
    (ci H : Nat) (events : List SEvent) (send_ok : Nat → SEvent → Bool)
    (hf0 : client_flag s0 ci H = false)
    (hnever : ∀ r ∈ reqs, ¬(r.1 = ci ∧ r.2.1 = H ∧ r.2.2 = true)) :
    (∀ e : SEvent,
      (ci, e) ∈ smodule_dispatch_batch (run_reqs s0 reqs) events send_ok →
      e.sensor ≠ H) ∧
    (∀ (i : Nat) (e : SEvent),
      (i, e) ∈ smodule_dispatch_batch (run_reqs s0 reqs) events send_ok →
      ((run_reqs s0 reqs).clients.getD i default).sensor_enabled.getD e.sensor false =
        true) := by
  have hflag := run_reqs_flag_false ci H reqs s0 hf0 hnever
  rw [client_flag] at hflag
  constructor
  · intro e hmem heq
    have hen := mem_dispatch_batch _ _ _ _ _ hmem
    rw [heq] at hen
    rw [hflag] at hen
    exact Bool.false_ne_true hen
  · intro i e hmem
    exact mem_dispatch_batch _ _ _ _ _ hmem

/-- Witness for C8: client 0 enables both handles, client 1 never enables
handle 0; the fan-out of a handle-0 event is never attempted towards
client 1. -/
theorem C8_event_isolation_witness :
    ¬((1, (⟨0, 11⟩ : SEvent)) ∈
      smodule_dispatch_batch (run_reqs ex_smod_two_sensors [(0, 0, true), (0, 1, true)])
        ex_events ex_send_ok) :=
  fun hmem =>
    (C8_event_isolation ex_smod_two_sensors [(0, 0, true), (0, 1, true)] 1 0
      ex_events ex_send_ok (by decide) (by decide)).1 ⟨0, 11⟩ hmem rfl

/-!  Checked-indexing lemmas for the bounds-safety claim. -/

theorem getI_pos {α : Type} (l : List α) (i : Int) (d : α)
    (h : 0 ≤ i ∧ i < (l.length : Int)) : getI l i d = some (l.getD i.toNat d) := by
  rw [getI, if_pos h]

theorem getI_neg {α : Type} (l : List α) (i : Int) (d : α)
    (h : ¬(0 ≤ i ∧ i < (l.length : Int))) : getI l i d = none := by
  rw [getI, if_neg h]

theorem setI_pos {α : Type} (l : List α) (i : Int) (v : α)
    (h : 0 ≤ i ∧ i < (l.length : Int)) : setI l i v = some (l.set i.toNat v) := by
  rw [setI, if_pos h]

theorem setI_neg {α : Type} (l : List α) (i : Int) (v : α)
    (h : ¬(0 ≤ i ∧ i < (l.length : Int))) : setI l i v = none := by
  rw [setI, if_neg h]

theorem delay_scan_checked_eq (handle : Int) (h0 : 0 ≤ handle) :
    ∀ (cs : List SClient) (L : Nat),
      (∀ c ∈ cs, c.sensor_enabled.length = L ∧ c.sensor_delay_ns.length = L) →
      handle < (L : Int) →
      ∀ m, delay_scan_checked handle cs m = some (delay_scan handle.toNat cs m) := by
  intro cs
  induction cs with
  | nil =>
    intro L _ _ m
    rfl
  | cons c cs ih =>
    intro L hlen hlt m
    obtain ⟨he, hd⟩ := hlen c (List.mem_cons_self c cs)
    rw [delay_scan_checked]
    simp only [getI_pos c.sensor_delay_ns handle 0 ⟨h0, by rw [hd]; exact hlt⟩,
      getI_pos c.sensor_enabled handle false ⟨h0, by rw [he]; exact hlt⟩,
      Option.bind_eq_bind, Option.some_bind]
    rw [ih L (fun c' hc' => hlen c' (List.mem_cons_of_mem c hc')) hlt]
    rfl

theorem udc_eq (smod : Smod) (handle : Int) (hwf : smod.wf) (h0 : 0 ≤ handle)
    (hle : handle ≤ (smod.handle_last : Int)) :
    smodule_client_update_delay_checked smod handle =
      some (smodule_client_update_delay smod handle.toNat) := by
  have hlt : handle < ((smod.handle_last + 1 : Nat) : Int) := by push_cast; omega
  have hdl : smod.sensor_delay_ns.length = smod.handle_last + 1 := hwf.2.1
  rw [smodule_client_update_delay_checked]
  rw [delay_scan_checked_eq handle h0 smod.clients (smod.handle_last + 1)
      (fun c hc => hwf.2.2 c hc) hlt LLONG_MAX]
  simp only [Option.bind_eq_bind, Option.some_bind,
    getI_pos smod.sensor_delay_ns handle 0 ⟨h0, by rw [hdl]; exact hlt⟩,
    setI_pos smod.sensor_delay_ns handle _ ⟨h0, by rw [hdl]; exact hlt⟩]
  rw [smodule_client_update_delay]
  split_ifs <;> rfl

theorem wf_clients_set (smod : Smod) (ci : Nat) (client' : SClient)
    (hlen1 : client'.sensor_enabled.length = smod.handle_last + 1)
    (hlen2 : client'.sensor_delay_ns.length = smod.handle_last + 1)
    (h3 : ∀ c ∈ smod.clients,
      c.sensor_enabled.length = smod.handle_last + 1 ∧
      c.sensor_delay_ns.length = smod.handle_last + 1) :
    ∀ c ∈ smod.clients.set ci client',
      c.sensor_enabled.length = smod.handle_last + 1 ∧
      c.sensor_delay_ns.length = smod.handle_last + 1 := by
  intro c hc
  rcases List.mem_or_eq_of_mem_set hc with hm | rfl
  · exact h3 c hm
  · exact ⟨hlen1, hlen2⟩

theorem ua_wf (smod : Smod) (ci h : Nat) (b : Bool) (hwf : smod.wf)
    (hci : ci < smod.clients.length) :
    (smodule_client_update_activate smod ci h b).1.wf := by
  obtain ⟨h1, h2, h3⟩ := hwf
  obtain ⟨hce, hcd⟩ := h3 (smod.clients.getD ci default) (getD_mem_of_lt _ _ _ hci)
  refine ⟨?_, ?_, ?_⟩
  · rw [ua_counts_length, ua_handle_last]
    exact h1
  · rw [ua_delay_ns, ua_handle_last]
    exact h2
  · intro c hc
    rw [ua_handle_last]
    revert hc
    simp only [smodule_client_update_activate]
    split_ifs <;> intro hc <;>
      first
        | exact h3 c hc
        | (rcases List.mem_or_eq_of_mem_set hc with hm | rfl
           · exact h3 c hm
           · exact ⟨by rw [List.length_set]; exact hce, hcd⟩)

theorem uac_eq (smod : Smod) (ci : Nat) (handle : Int) (en : Bool)
    (hwf : smod.wf) (hci : ci < smod.clients.length) (h0 : 0 ≤ handle)
    (hle : handle ≤ (smod.handle_last : Int)) :
    smodule_client_update_activate_checked smod ci handle en =
      some (smodule_client_update_activate smod ci handle.toNat en) := by
  have hlt : handle < ((smod.handle_last + 1 : Nat) : Int) := by push_cast; omega
  obtain ⟨hct, hdl, hcl⟩ := hwf
  obtain ⟨hce, hcd⟩ := hcl (smod.clients.getD ci default) (getD_mem_of_lt _ _ _ hci)
  rw [smodule_client_update_activate_checked, smodule_client_update_activate]
  simp only
    [getI_pos (smod.clients.getD ci default).sensor_enabled handle false
      ⟨h0, by rw [hce]; exact hlt⟩,
    getI_pos smod.sensors_enabled handle 0 ⟨h0, by rw [hct]; exact hlt⟩,
    getI_pos smod.sensor_delay_ns handle 0 ⟨h0, by rw [hdl]; exact hlt⟩,
    setI_pos (smod.clients.getD ci default).sensor_enabled handle _
      ⟨h0, by rw [hce]; exact hlt⟩,
    setI_pos smod.sensors_enabled handle _ ⟨h0, by rw [hct]; exact hlt⟩,
    Option.bind_eq_bind, Option.some_bind]
  split_ifs <;> rfl

/-!  Teardown lemmas: the disable loop of `smodule_client_free`. -/

theorem ua_dis_flag_self (smod : Smod) (ci h : Nat)
    (hci : ci < smod.clients.length) :
    client_flag (smodule_client_update_activate smod ci h false).1 ci h = false := by
  by_cases hf : client_flag smod ci h = true
  · have hlen : h < (smod.clients.getD ci default).sensor_enabled.length := by
      rw [client_flag] at hf
      exact getD_true_lt _ _ hf
    rw [client_flag] at hf ⊢
    simp only [smodule_client_update_activate]
    split_ifs <;> simp_all [getE_set_self, getE_set_ne]
  · have hf' : client_flag smod ci h = false := by
      cases hv : client_flag smod ci h
      · rfl
      · exact absurd hv hf
    rw [ua_nop_disable smod ci h hf']
    exact hf'

theorem ua_dis_calls_sub (smod : Smod) (ci h : Nat) :
    ∀ c ∈ (smodule_client_update_activate smod ci h false).2,
      c = DevCall.activate h false := by
  simp only [smodule_client_update_activate]
  split_ifs <;> intro c hc <;> simp_all

theorem ua_dis_call_mem (smod : Smod) (ci h : Nat) :
    DevCall.activate h false ∈ (smodule_client_update_activate smod ci h false).2 ↔
      client_flag smod ci h = true ∧ enabled_count smod h = 1 := by
  simp only [smodule_client_update_activate, client_flag, enabled_count]
  split_ifs <;> (simp_all; try omega)

theorem free_loop_acc (ci : Nat) : ∀ (hs : List Nat) (s : Smod) (cs : List DevCall),
    smodule_client_free_loop ci (s, cs) hs =
      ((smodule_client_free_loop ci (s, []) hs).1,
       cs ++ (smodule_client_free_loop ci (s, []) hs).2) := by
  intro hs
  induction hs with
  | nil =>
    intro s cs
    simp [smodule_client_free_loop]
  | cons h hs ih =>
    intro s cs
    simp only [smodule_client_free_loop]
    split_ifs with hf
    · rw [ih (smodule_client_update_activate s ci h false).1
          (cs ++ (smodule_client_update_activate s ci h false).2),
        ih (smodule_client_update_activate s ci h false).1
          ([] ++ (smodule_client_update_activate s ci h false).2)]
      simp [List.append_assoc]
    · exact ih s cs

/-- Full characterisation of the disable loop of `smodule_client_free` over a
duplicate-free list of in-range handles: lengths and delays are untouched;
for each processed handle the enabled count drops by one exactly when the
client had it enabled, and `activate(h, false)` appears in the call trace
exactly when the client had it enabled with `enabled_count` 1; unprocessed
handles are completely untouched. -/
theorem free_loop_spec (ci : Nat) : ∀ (hs : List Nat) (s : Smod),
    hs.Nodup → (∀ h ∈ hs, h < s.sensors_enabled.length) →
    ci < s.clients.length →
    (smodule_client_free_loop ci (s, []) hs).1.clients.length = s.clients.length ∧
    (smodule_client_free_loop ci (s, []) hs).1.sensors_enabled.length =
      s.sensors_enabled.length ∧
    (smodule_client_free_loop ci (s, []) hs).1.handle_last = s.handle_last ∧
    (smodule_client_free_loop ci (s, []) hs).1.sensor_delay_ns = s.sensor_delay_ns ∧
    (∀ h ∈ hs,
      enabled_count (smodule_client_free_loop ci (s, []) hs).1 h =
        enabled_count s h - (if client_flag s ci h then 1 else 0) ∧
      (DevCall.activate h false ∈ (smodule_client_free_loop ci (s, []) hs).2 ↔
        client_flag s ci h = true ∧ enabled_count s h = 1)) ∧
    (∀ h, h ∉ hs →
      enabled_count (smodule_client_free_loop ci (s, []) hs).1 h =
        enabled_count s h ∧
      client_flag (smodule_client_free_loop ci (s, []) hs).1 ci h =
        client_flag s ci h ∧
      DevCall.activate h false ∉ (smodule_client_free_loop ci (s, []) hs).2) := by
  intro hs
  induction hs with
  | nil =>
    intro s _ _ _
    refine ⟨rfl, rfl, rfl, rfl, ?_, ?_⟩
    · intro h hh
      exact absurd hh (List.not_mem_nil h)
    · intro h _
      exact ⟨rfl, rfl, List.not_mem_nil _⟩
  | cons h hs ih =>
    intro s hnd hb hci
    have hndh : h ∉ hs := (List.nodup_cons.mp hnd).1
    have hnd' : hs.Nodup := (List.nodup_cons.mp hnd).2
    by_cases hf : client_flag s ci h = true
    · -- the loop disables handle h first
      have hstep : smodule_client_free_loop ci (s, []) (h :: hs) =
          smodule_client_free_loop ci
            ((smodule_client_update_activate s ci h false).1,
             [] ++ (smodule_client_update_activate s ci h false).2) hs := by
        rw [client_flag] at hf
        simp only [smodule_client_free_loop]
        rw [if_pos hf]
      have hlt_h : h < s.sensors_enabled.length := hb h (List.mem_cons_self h hs)
      have hca := ua_count_after s ci h false hlt_h
      simp only [Bool.false_eq_true, if_false] at hca
      rw [if_pos hf] at hca
      have hflag_h := ua_dis_flag_self s ci h hci
      have hcallmem := ua_dis_call_mem s ci h
      have hcallsub := ua_dis_calls_sub s ci h
      obtain ⟨ihcl, ihct, ihhl, ihdl, ihmem, ihnot⟩ :=
        ih (smodule_client_update_activate s ci h false).1 hnd'
          (by
            intro h' hh'
            rw [ua_counts_length]
            exact hb h' (List.mem_cons_of_mem h hh'))
          (by rw [ua_clients_length]; exact hci)
      rw [hstep, List.nil_append,
        free_loop_acc ci hs (smodule_client_update_activate s ci h false).1
          (smodule_client_update_activate s ci h false).2]
      refine ⟨?_, ?_, ?_, ?_, ?_, ?_⟩
      · rw [ihcl, ua_clients_length]
      · rw [ihct, ua_counts_length]
      · rw [ihhl, ua_handle_last]
      · rw [ihdl, ua_delay_ns]
      · intro h' hh'
        rcases List.mem_cons.mp hh' with rfl | hmem
        · obtain ⟨hc_eq, hflag_eq, hnotmem⟩ := ihnot h' hndh
          constructor
          · rw [hc_eq, hca, if_pos hf]
          · rw [List.mem_append]
            constructor
            · intro hor
              rcases hor with hin | hin
              · exact hcallmem.mp hin
              · exact absurd hin hnotmem
            · intro hcond
              exact Or.inl (hcallmem.mpr hcond)
        · have hne : h' ≠ h := by
            intro heq
            rw [heq] at hmem
            exact hndh hmem
          obtain ⟨ihc, ihm⟩ := ihmem h' hmem
          have hcount_ne := ua_count_other s ci h false h' (Ne.symm hne)
          have hflag_ne := ua_flag_other_handle s ci h false h' (Ne.symm hne)
          constructor
          · rw [ihc, hcount_ne, hflag_ne]
          · rw [List.mem_append]
            constructor
            · intro hor
              rcases hor with hin | hin
              · have := hcallsub _ hin
                simp [DevCall.activate.injEq] at this
                exact absurd this hne
              · rw [← hcount_ne, ← hflag_ne]
                exact ihm.mp hin
            · intro hcond
              rw [← hcount_ne, ← hflag_ne] at hcond
              exact Or.inr (ihm.mpr hcond)
      · intro h'' hh''
        have hne : h'' ≠ h := fun heq => hh'' (heq ▸ List.mem_cons_self h hs)
        have hnot' : h'' ∉ hs := fun hmem => hh'' (List.mem_cons_of_mem h hmem)
        obtain ⟨ihc, ihfl, ihnm⟩ := ihnot h'' hnot'
        have hcount_ne := ua_count_other s ci h false h'' (Ne.symm hne)
        have hflag_ne := ua_flag_other_handle s ci h false h'' (Ne.symm hne)
        refine ⟨?_, ?_, ?_⟩
        · rw [ihc, hcount_ne]
        · rw [ihfl, hflag_ne]
        · rw [List.mem_append]
          intro hor
          rcases hor with hin | hin
          · have := hcallsub _ hin
            simp [DevCall.activate.injEq] at this
            exact hne this
          · exact ihnm hin
    · -- handle h is not enabled by this client: the loop skips it
      have hf' : client_flag s ci h = false := by
        cases hv : client_flag s ci h
        · rfl
        · exact absurd hv hf
      have hstep : smodule_client_free_loop ci (s, []) (h :: hs) =
          smodule_client_free_loop ci (s, []) hs := by
        rw [client_flag] at hf'
        simp only [smodule_client_free_loop]
        rw [if_neg]
        rw [hf']
        exact Bool.false_ne_true
      obtain ⟨ihcl, ihct, ihhl, ihdl, ihmem, ihnot⟩ :=
        ih s hnd' (fun h' hh' => hb h' (List.mem_cons_of_mem h hh')) hci
      rw [hstep]
      refine ⟨ihcl, ihct, ihhl, ihdl, ?_, ?_⟩
      · intro h' hh'
        rcases List.mem_cons.mp hh' with rfl | hmem
        · obtain ⟨hc_eq, _, hnotmem⟩ := ihnot h' hndh
          refine ⟨?_, ?_⟩
          · rw [hc_eq, hf']
            simp
          · constructor
            · intro hin
              exact absurd hin hnotmem
            · intro hcond
              rw [hf'] at hcond
              exact absurd hcond.1 Bool.false_ne_true
        · exact ihmem h' hmem
      · intro h'' hh''
        exact ihnot h'' (fun hmem => hh'' (List.mem_cons_of_mem h hmem))

/-!  Minimum-delay aggregation lemmas. -/

theorem foldl_min_le_init : ∀ (l : List Int) (m : Int), l.foldl min m ≤ m := by
  intro l
  induction l with
  | nil =>
    intro m
    exact le_refl m
  | cons a l ih =>
    intro m
    calc (a :: l).foldl min m = l.foldl min (min m a) := by rw [List.foldl_cons]
    _ ≤ min m a := ih (min m a)
    _ ≤ m := min_le_left m a

theorem foldl_min_le_mem : ∀ (l : List Int) (m a : Int), a ∈ l →
    l.foldl min m ≤ a := by
  intro l
  induction l with
  | nil =>
    intro m a ha
    exact absurd ha (List.not_mem_nil a)
  | cons b l ih =>
    intro m a ha
    rw [List.foldl_cons]
    rcases List.mem_cons.mp ha with rfl | hmem
    · calc l.foldl min (min m a) ≤ min m a := foldl_min_le_init l (min m a)
      _ ≤ a := min_le_right m a
    · exact ih (min m b) a hmem

theorem foldl_min_mem_or : ∀ (l : List Int) (m : Int),
    l.foldl min m = m ∨ l.foldl min m ∈ l := by
  intro l
  induction l with
  | nil =>
    intro m
    exact Or.inl rfl
  | cons a l ih =>
    intro m
    rw [List.foldl_cons]
    rcases ih (min m a) with h | h
    · rcases min_choice m a with hm | hm
      · exact Or.inl (h.trans hm)
      · exact Or.inr (List.mem_cons.mpr (Or.inl (h.trans hm)))
    · exact Or.inr (List.mem_cons.mpr (Or.inr h))

theorem mem_aggregable (smod : Smod) (handle : Nat) (x : Int)
    (hx : x ∈ aggregable_delays smod handle) : 0 < x ∧ x < LLONG_MAX := by
  rw [aggregable_delays] at hx
  obtain ⟨c, _, heq⟩ := List.mem_filterMap.mp hx
  rw [client_agg_delay] at heq
  split_ifs at heq with h
  · cases heq
    exact ⟨h.2.1, h.2.2⟩

theorem delay_scan_eq_foldl_min (handle : Nat) :
    ∀ (cs : List SClient) (m : Int), m ≤ LLONG_MAX →
      delay_scan handle cs m = (cs.filterMap (client_agg_delay handle)).foldl min m := by
  intro cs
  induction cs with
  | nil =>
    intro m _
    rfl
  | cons c cs ih =>
    intro m hm
    rw [delay_scan, List.foldl_cons, List.filterMap_cons]
    rcases hagg : client_agg_delay handle c with _ | d
    · rw [client_agg_delay] at hagg
      split_ifs at hagg with h
      have hstep :
          (if c.sensor_enabled.getD handle false ∧ 0 < c.sensor_delay_ns.getD handle 0 ∧
              c.sensor_delay_ns.getD handle 0 < m
           then c.sensor_delay_ns.getD handle 0 else m) = m := by
        rw [if_neg]
        intro hcond
        exact h ⟨hcond.1, hcond.2.1, lt_of_lt_of_le hcond.2.2 hm⟩
      rw [hstep]
      exact ih m hm
    · rw [client_agg_delay] at hagg
      split_ifs at hagg with h
      cases hagg
      have hstep :
          (if c.sensor_enabled.getD handle false ∧ 0 < c.sensor_delay_ns.getD handle 0 ∧
              c.sensor_delay_ns.getD handle 0 < m
           then c.sensor_delay_ns.getD handle 0 else m) =
            min m (c.sensor_delay_ns.getD handle 0) := by
        split_ifs with hcond
        · exact (min_eq_right (le_of_lt hcond.2.2)).symm
        · have : ¬(c.sensor_delay_ns.getD handle 0 < m) := by
            intro hlt
            exact hcond ⟨h.1, h.2.1, hlt⟩
          exact (min_eq_left (by omega)).symm
      rw [hstep]
      exact ih (min m (c.sensor_delay_ns.getD handle 0)) (le_trans (min_le_left _ _) hm)

/-- Counterexample to C7 as stated: a single enabled session requesting
exactly `LLONG_MAX` nanoseconds is a session with a positive request, and
the effective delay was never set (0); the claim then demands a
`Device.set_delay` call storing the minimum, but the scan treats
`LLONG_MAX` as its no-request sentinel and `smodule_client_update_delay`
changes nothing and calls nothing. -/
theorem C7_llmax_request_ignored_cex :
    enabled_positive_delays ex_smod_llmax 0 =
      [9223372036854775807] ∧
    effective_delay ex_smod_llmax 0 = 0 ∧
    smodule_client_update_delay ex_smod_llmax 0 = (ex_smod_llmax, []) := by
  decide

/-- C7 amended: `update_delay` aggregates over the positive requested delays
strictly below `LLONG_MAX` of the sessions enabled for the handle (a request
of exactly `LLONG_MAX`, the sentinel of the scan, is treated as no request).
If no enabled session has such a request, nothing changes and no call is
made; otherwise the computed value is the minimum of those delays, and
`setDelay` is called and the value stored exactly when it differs from the
stored effective delay or the effective delay was never set (zero). -/
theorem C7_update_delay_min_amended (smod : Smod) (handle : Nat) :
    (aggregable_delays smod handle = [] →
      smodule_client_update_delay smod handle = (smod, [])) ∧
    (aggregable_delays smod handle ≠ [] →
      delay_scan handle smod.clients LLONG_MAX ∈ aggregable_delays smod handle ∧
      (∀ x ∈ aggregable_delays smod handle,
        delay_scan handle smod.clients LLONG_MAX ≤ x) ∧
      ((effective_delay smod handle = 0 ∨
          delay_scan handle smod.clients LLONG_MAX ≠ effective_delay smod handle) →
        smodule_client_update_delay smod handle =
          ({ smod with
              sensor_delay_ns := smod.sensor_delay_ns.set handle
                (delay_scan handle smod.clients LLONG_MAX) },
           [DevCall.setDelay handle (delay_scan handle smod.clients LLONG_MAX)])) ∧
      (¬(effective_delay smod handle = 0 ∨
          delay_scan handle smod.clients LLONG_MAX ≠ effective_delay smod handle) →
        smodule_client_update_delay smod handle = (smod, []))) := by
  have hfold := delay_scan_eq_foldl_min handle smod.clients LLONG_MAX le_rfl
  constructor
  · intro hP
    rw [aggregable_delays] at hP
    have hm : delay_scan handle smod.clients LLONG_MAX = LLONG_MAX := by
      rw [hfold, hP]
      rfl
    rw [smodule_client_update_delay]
    simp [hm]
  · intro hP
    rw [aggregable_delays] at hP
    obtain ⟨x0, hx0⟩ := List.exists_mem_of_ne_nil _ hP
    have hx0b := mem_aggregable smod handle x0 (by rw [aggregable_delays]; exact hx0)
    have hle : delay_scan handle smod.clients LLONG_MAX ≤ x0 := by
      rw [hfold]
      exact foldl_min_le_mem _ LLONG_MAX x0 hx0
    have hne : delay_scan handle smod.clients LLONG_MAX ≠ LLONG_MAX := by
      omega
    have hmem : delay_scan handle smod.clients LLONG_MAX ∈
        aggregable_delays smod handle := by
      rw [aggregable_delays, hfold]
      rcases foldl_min_mem_or
          (smod.clients.filterMap (client_agg_delay handle)) LLONG_MAX with h | h
      · exact absurd (hfold.trans h) hne
      · exact h
    refine ⟨hmem, ?_, ?_, ?_⟩
    · intro x hx
      rw [hfold]
      exact foldl_min_le_mem _ LLONG_MAX x (by rw [aggregable_delays] at hx; exact hx)
    · intro hcond
      rw [effective_delay] at hcond
      rw [smodule_client_update_delay]
      simp only [if_neg hne, if_pos hcond]
    · intro hcond
      rw [effective_delay] at hcond
      rw [smodule_client_update_delay]
      simp only [if_neg hne, if_neg hcond]

/-- Witness for C7 (amended): in the {50ms, 20ms, 100ms} scenario the scan
value is a member of the aggregable delays, and since it equals the stored
effective delay (20 ms) no call is made and nothing changes. -/
theorem C7_update_delay_min_amended_witness :
    delay_scan 0 ex_delay_smod.clients LLONG_MAX ∈ aggregable_delays ex_delay_smod 0 ∧
    smodule_client_update_delay ex_delay_smod 0 = (ex_delay_smod, []) :=
  ⟨((C7_update_delay_min_amended ex_delay_smod 0).2 (by decide)).1,
   ((C7_update_delay_min_amended ex_delay_smod 0).2 (by decide)).2.2.2 (by decide)⟩

/-- Counterexample to C5 as stated: a command-read failure whose errno is a
genuine transport error other than `ECONNRESET` (here `errno = 5`, EIO, as
left by a failing `recv`) does not trigger any teardown — the session stays
in the registry with its sensor still enabled and no device call is made. -/
theorem C5_transport_error_no_teardown_cex :
    recv_all_errno (-1) 5 = 5 ∧
    smodule_client_handle_event_err ex_smod_enabled1 0 5 = (ex_smod_enabled1, []) ∧
    ex_smod_enabled1.clients.length = 1 ∧
    client_flag ex_smod_enabled1 0 0 = true ∧
    enabled_count ex_smod_enabled1 0 = 1 := by
  decide

/-- C5 amended: only a read failure with errno `ECONNRESET` — a true
connection reset, or an orderly peer shutdown which `recv_all` maps to
`ECONNRESET` — triggers teardown: every handle the session had enabled has
its enabled count decremented, with an `activate(h, false)` device call
exactly for the handles whose count drops 1→0, and the session is removed
from the registry.  A read failure with any other errno is only logged: the
state is unchanged and no device call is made. -/
theorem C5_teardown_on_connreset_amended (smod : Smod) (ci : Nat)
    (hwf : smod.sensors_enabled.length = smod.handle_last + 1)
    (hci : ci < smod.clients.length) :
    (∀ errno, errno ≠ ECONNRESET →
      smodule_client_handle_event_err smod ci errno = (smod, [])) ∧
    (smodule_client_handle_event_err smod ci ECONNRESET =
      smodule_client_free smod ci ∧
     (smodule_client_free smod ci).1.clients.length = smod.clients.length - 1 ∧
     (∀ h, h ≤ smod.handle_last →
       enabled_count (smodule_client_free smod ci).1 h =
         enabled_count smod h - (if client_flag smod ci h then 1 else 0) ∧
       (DevCall.activate h false ∈ (smodule_client_free smod ci).2 ↔
         client_flag smod ci h = true ∧ enabled_count smod h = 1))) := by
  obtain ⟨hcl, _, _, _, hmem, _⟩ :=
    free_loop_spec ci (List.range (smod.handle_last + 1)) smod
      (List.nodup_range (smod.handle_last + 1))
      (by
        intro h hh
        rw [hwf]
        exact List.mem_range.mp hh)
      hci
  refine ⟨?_, ?_, ?_, ?_⟩
  · intro errno hne
    rw [smodule_client_handle_event_err, if_neg hne]
  · rw [smodule_client_handle_event_err, if_pos rfl]
  · rw [smodule_client_free]
    have hci' : ci <
        (smodule_client_free_loop ci (smod, [])
          (List.range (smod.handle_last + 1))).1.clients.length := by
      rw [hcl]
      exact hci
    simp only [List.length_eraseIdx_of_lt hci']
    rw [hcl]
  · intro h hh
    have hrange : h ∈ List.range (smod.handle_last + 1) :=
      List.mem_range.mpr (by omega)
    obtain ⟨hc, hm⟩ := hmem h hrange
    rw [smodule_client_free]
    exact ⟨hc, hm⟩

/-- Witness for C5 (amended): for the one-client server with handle 0
enabled, a non-`ECONNRESET` read error changes nothing, while the
`ECONNRESET` teardown drops the enabled count of handle 0 to zero and issues
`activate(0, false)`. -/
theorem C5_teardown_on_connreset_amended_witness :
    smodule_client_handle_event_err ex_smod_enabled1 0 7 = (ex_smod_enabled1, []) ∧
    enabled_count (smodule_client_free ex_smod_enabled1 0).1 0 = 0 ∧
    DevCall.activate 0 false ∈ (smodule_client_free ex_smod_enabled1 0).2 := by
  have T := C5_teardown_on_connreset_amended ex_smod_enabled1 0 (by decide) (by decide)
  refine ⟨T.1 7 (by decide), ?_, ?_⟩
  · rw [(T.2.2.2 0 (by decide)).1]
    decide
  · exact (T.2.2.2 0 (by decide)).2.mpr (by decide)

/-- C10: the command handlers index the per-handle arrays (all of size
`handle_last + 1`) directly with the handle taken from the received command,
with no range check at the command boundary: the checked embedding — in
which every such access fails when out of bounds — succeeds exactly under
the precondition `0 ≤ cmd.handle ≤ handle_last`; and for a `SET_DELAY`
command the raw store into the session delay array happens before any
validity assertion runs. -/
theorem C10_command_handle_unchecked (smod : Smod) (ci : Nat) (cmd : ProxyCmd)
    (hwf : smod.wf) (hci : ci < smod.clients.length)
    (hcmd : cmd.cmd = SENSORS_PROXY_CMD_ACTIVATE ∨
      cmd.cmd = SENSORS_PROXY_CMD_SET_DELAY) :
    ((smodule_client_handle_cmd_checked smod ci cmd).isSome ↔
      (0 ≤ cmd.handle ∧ cmd.handle ≤ (smod.handle_last : Int))) ∧
    (cmd.cmd = SENSORS_PROXY_CMD_SET_DELAY →
      smodule_cmd_boundary_trace cmd =
        [BoundaryAction.store_client_delay cmd.handle,
         BoundaryAction.assert_handle_range cmd.handle]) := by
  have hclen := hwf.2.2 (smod.clients.getD ci default) (getD_mem_of_lt _ _ _ hci)
  constructor
  · constructor
    · intro hsome
      by_contra hnb
      rcases hcmd with h | h
      · rw [smodule_client_handle_cmd_checked, if_pos h,
          smodule_client_update_activate_checked,
          getI_neg (smod.clients.getD ci default).sensor_enabled cmd.handle false
            (by
              rw [hclen.1]
              intro hcon
              apply hnb
              constructor
              · exact hcon.1
              · have := hcon.2
                push_cast at this ⊢
                omega)] at hsome
        simp at hsome
      · have hne0 : cmd.cmd ≠ SENSORS_PROXY_CMD_ACTIVATE := by
          rw [h]
          decide
        rw [smodule_client_handle_cmd_checked, if_neg hne0, if_pos h] at hsome
        simp only
          [setI_neg (smod.clients.getD ci default).sensor_delay_ns cmd.handle cmd.value
            (by
              rw [hclen.2]
              intro hcon
              apply hnb
              constructor
              · exact hcon.1
              · have := hcon.2
                push_cast at this ⊢
                omega),
          Option.bind_eq_bind, Option.none_bind] at hsome
        simp at hsome
    · rintro ⟨h0, hle⟩
      rcases hcmd with h | h
      · rw [smodule_client_handle_cmd_checked, if_pos h,
          uac_eq smod ci cmd.handle (decide (cmd.value ≠ 0)) hwf hci h0 hle]
        simp only [Option.bind_eq_bind, Option.some_bind]
        rw [udc_eq (smodule_client_update_activate smod ci cmd.handle.toNat
              (decide (cmd.value ≠ 0))).1 cmd.handle
            (ua_wf smod ci cmd.handle.toNat (decide (cmd.value ≠ 0)) hwf hci)
            h0 (by rw [ua_handle_last]; exact hle)]
        simp
      · have hne0 : cmd.cmd ≠ SENSORS_PROXY_CMD_ACTIVATE := by
          rw [h]
          decide
        have hlt : cmd.handle < ((smod.handle_last + 1 : Nat) : Int) := by
          push_cast
          omega
        rw [smodule_client_handle_cmd_checked, if_neg hne0, if_pos h]
        simp only
          [setI_pos (smod.clients.getD ci default).sensor_delay_ns cmd.handle cmd.value
            ⟨h0, by rw [hclen.2]; exact hlt⟩,
          Option.bind_eq_bind, Option.some_bind]
        rw [udc_eq
            { handle_last := smod.handle_last
              sensors_enabled := smod.sensors_enabled
              sensor_delay_ns := smod.sensor_delay_ns
              clients := smod.clients.set ci
                { sensors_enabled := (smod.clients.getD ci default).sensors_enabled
                  sensor_enabled := (smod.clients.getD ci default).sensor_enabled
                  sensor_delay_ns := (smod.clients.getD ci default).sensor_delay_ns.set
                    cmd.handle.toNat cmd.value } }
            cmd.handle
            ⟨hwf.1, hwf.2.1,
             wf_clients_set smod ci _
               hclen.1
               (by rw [List.length_set]; exact hclen.2) hwf.2.2⟩
            h0 hle]
        simp
  · intro h
    rw [smodule_cmd_boundary_trace, if_neg (by rw [h]; decide), if_pos h]

/-- Witness for C10: on a well-formed single-sensor server, an in-range
`SET_DELAY` command (handle 0) is processed, an out-of-range `ACTIVATE`
command (handle 5) fails at the unchecked access, and the `SET_DELAY`
boundary trace stores into the session delay array before the range
assertion. -/
theorem C10_command_handle_unchecked_witness :
    (smodule_client_handle_cmd_checked ex_smod_enabled1 0
      ⟨1, 0, 3000000⟩).isSome ∧
    ¬(smodule_client_handle_cmd_checked ex_smod_enabled1 0 ⟨0, 5, 1⟩).isSome ∧
    smodule_cmd_boundary_trace ⟨1, 0, 3000000⟩ =
      [BoundaryAction.store_client_delay 0, BoundaryAction.assert_handle_range 0] := by
  have T1 := C10_command_handle_unchecked ex_smod_enabled1 0 ⟨1, 0, 3000000⟩
    ⟨by decide, by decide, by decide⟩ (by decide) (Or.inr rfl)
  have T2 := C10_command_handle_unchecked ex_smod_enabled1 0 ⟨0, 5, 1⟩
    ⟨by decide, by decide, by decide⟩ (by decide) (Or.inl rfl)
  refine ⟨T1.1.mpr (by decide), ?_, T1.2 rfl⟩
  intro hsome
  exact absurd (T2.1.mp hsome) (by decide)

/-- Witness for C9: with a stored effective delay of 5 ms, enabling handle 0
on the 0→1 edge issues `activate` then `setDelay(0, 5 ms)`; with no stored
delay it issues only `activate`. -/
theorem C9_delay_reissued_on_activation_witness :
    (smodule_client_update_activate ⟨0, [0], [5000000], [fresh_client 0]⟩ 0 0 true).2 =
      [DevCall.activate 0 true, DevCall.setDelay 0 5000000] ∧
    (smodule_client_update_activate ex_smod2 0 0 true).2 = [DevCall.activate 0 true] :=
  ⟨(C9_delay_reissued_on_activation ⟨0, [0], [5000000], [fresh_client 0]⟩ 0 0
      (by decide) (by decide)).1 (by decide),
   (C9_delay_reissued_on_activation ex_smod2 0 0 (by decide) (by decide)).2 (by decide)⟩

end SensorsProxy
